import Mathlib

/-!
Shallow embedding of `src/supercycler.py` (the schedule resolution engine)
and proofs of the spec's claims about it.

Instants are modelled as rational numbers of hours since an arbitrary epoch:
an event parsed from `{date, hour}` (via `datetime.strptime("%d/%m/%Y %H")`)
lands on a whole hour `24 * day + hour`, while `datetime.now()` may fall
anywhere in between, hence `ℚ`.
-/

namespace Supercycler

/-- Python's `round(x, 2)`: round to two decimal places. -/
def round2 (q : ℚ) : ℚ := (round (q * 100) : ℤ) / 100

/-- A parsed event: the `date` element (as a day number), the `hour` element
(an integer, as produced by both `int(...)` and `strptime("%H")`), and the
`state` text. Mirrors the `(event_datetime, state)` tuples built at
`supercycler.py:27-34`. -/
structure Event where
  day : ℤ
  hour : ℤ
  state : String
deriving DecidableEq, Repr

/-- The full instant of an event, in hours since the epoch (a whole hour,
since events parse with `"%d/%m/%Y %H"`). -/
def Event.instant (e : Event) : ℚ := ((24 * e.day + e.hour : ℤ) : ℚ)

/-- Timelines ordered ascending by instant (the spec's §3 ordering invariant,
duplicates allowed). -/
def SortedTl (evts : List Event) : Prop :=
  evts.Pairwise (fun a b => a.instant ≤ b.instant)

/-- Well-formed timelines: instants strictly increasing. -/
def WellFormed (evts : List Event) : Prop :=
  evts.Pairwise (fun a b => a.instant < b.instant)

instance (evts : List Event) : Decidable (SortedTl evts) :=
  List.instDecidablePairwise evts

instance (evts : List Event) : Decidable (WellFormed evts) :=
  List.instDecidablePairwise evts

/-! ## TimelineResolver (`calcular_proximo_cambio`, lines 36-60) -/

/-- The current-state scan of `supercycler.py:40-44`: walk consecutive pairs
in order and return the state of the first `i` with
`eventos[i][0] <= now < eventos[i+1][0]`; `none` models `estado_actual = None`. -/
def estadoActual : List Event → ℚ → Option String
  | a :: b :: rest, now =>
      if a.instant ≤ now ∧ now < b.instant then some a.state
      else estadoActual (b :: rest) now
  | _, _ => none

/-- Result of `calcular_proximo_cambio`: either the next-change record
(lines 53-58; `fecha`/`hora` are renderings of `instant`) or one of the two
error dicts (lines 46-47 and line 60). -/
inductive Resultado where
  | cambio (instant : ℚ) (estado : String) (faltanHoras : ℚ)
  | errorEstado
  | errorSinCambios
deriving DecidableEq, Repr

/-- Lines 40-60 of `supercycler.py`, after parsing: resolve the current state,
then return the first event in list order with `evento[0] > now` and
`evento[1] != estado_actual`, with `faltan_horas = round((evento[0] - now)
 .total_seconds() / 3600, 2)`. -/
def proximoCambio (eventos : List Event) (now : ℚ) : Resultado :=
  match estadoActual eventos now with
  | none => .errorEstado
  | some est =>
      match eventos.find? (fun e => decide (now < e.instant) && decide (e.state ≠ est)) with
      | some e => .cambio e.instant e.state (round2 (e.instant - now))
      | none => .errorSinCambios

/-! ## CycleAnalyzer (`calcular_ciclo_on_off`, lines 79-112) -/

/-- The loop body state of `supercycler.py:83-98`: `lastState`/`lastHour`
update only on a state change, and each change appends
`hour - last_hour if hour >= last_hour else hour + 24 - last_hour`. -/
def cambiosAux (lastState : String) (lastHour : ℤ) : List (ℤ × String) → List ℤ
  | [] => []
  | (h, s) :: rest =>
      if s ≠ lastState then
        (if h ≥ lastHour then h - lastHour else h + 24 - lastHour) :: cambiosAux s h rest
      else cambiosAux lastState lastHour rest

/-- The `cambios` list of `calcular_ciclo_on_off`: the first event only
initialises `last_state`/`last_hour` (lines 88-91). -/
def cambios : List (ℤ × String) → List ℤ
  | [] => []
  | (h, s) :: rest => cambiosAux s h rest

/-- The wraparound hour distance of the spec:
`diff = next >= prev ? next - prev : next + 24 - prev`. -/
def dist (prev next : ℤ) : ℤ := if next ≥ prev then next - prev else next + 24 - prev

/-- Hours at which the recorded state changes, after an initial state. -/
def trAux (lastState : String) : List (ℤ × String) → List ℤ
  | [] => []
  | (h, s) :: rest => if s ≠ lastState then h :: trAux s rest else trAux lastState rest

/-- The sequence of `last_hour` values taken during the scan: the first
event's hour followed by the hour of every true transition. -/
def trSeq : List (ℤ × String) → List ℤ
  | [] => []
  | (h, s) :: rest => h :: trAux s rest

/-- Python list slicing `l[::2]`. -/
def evens : List ℤ → List ℤ
  | [] => []
  | [a] => [a]
  | a :: _ :: rest => a :: evens rest

/-- Python list slicing `l[1::2]`. -/
def odds : List ℤ → List ℤ
  | [] => []
  | [_] => []
  | _ :: b :: rest => b :: odds rest

/-- Python `int(...)` on a (true) ratio: truncation toward zero. -/
def truncInt (q : ℚ) : ℤ := if 0 ≤ q then ⌊q⌋ else ⌈q⌉

/-- `sum(l) / len(l) if l else 0` (lines 109-110). -/
def promedio (l : List ℤ) : ℚ := if l = [] then 0 else ((l.sum : ℚ)) / l.length

/-- Result of `calcular_ciclo_on_off`: the error string of line 102 or the
`(int(promedio_on), int(promedio_off))` pair of line 112. -/
inductive CicloResult where
  | insuficiente
  | ciclo (promedioOn promedioOff : ℤ)
deriving DecidableEq, Repr

/-- Lines 79-112 of `supercycler.py`, after parsing `(int(hour), state)`
pairs. -/
def calcularCiclo (evts : List (ℤ × String)) : CicloResult :=
  let cs := cambios evts
  if cs.length < 2 then .insuficiente
  else .ciclo (truncInt (promedio (evens cs))) (truncInt (promedio (odds cs)))

/-- Number of adjacent state pairs that differ in a list of states. -/
def adjDiff (l : List String) : ℕ :=
  ((l.zip l.tail).filter (fun p => p.1 != p.2)).length

/-- True state transitions of a timeline: consecutive events whose states
differ (consecutive same-state events are not transitions). Because the
scan's `last_state` always equals the previous event's state, this also
counts changes against the last *recorded* state. -/
def numTransitions (evts : List (ℤ × String)) : ℕ :=
  adjDiff (evts.map Prod.snd)

/-! ## ScheduleSummary pieces (`calcular_dia_de_flora`, lines 128-147, and
the summary prefix of `automatic`, lines 254-264) -/

/-- Lines 132-147 of `supercycler.py`: `None` (after printing) when there is
no first event, otherwise `(today - start_date).days` where `start_date` is
the first event's date at midnight and `timedelta.days` floors. -/
def diaDeFlora (evts : List Event) (today : ℚ) : Option ℤ :=
  match evts with
  | [] => none
  | e :: _ => some ⌊(today - 24 * e.day) / 24⌋

/-- The report assembled by `automatic` (lines 254-264). -/
structure Reporte where
  diaFlora : ℤ
  week : ℚ
  cicloOn : ℤ
  cicloOff : ℤ
  diaTotal : ℤ
  proximoInstant : ℚ
  proximoEstado : String
  faltanHoras : ℚ
deriving DecidableEq, Repr

/-- Outcome of the summary stage of `automatic`: either the assembled report
or an uncaught exception (`crash`). -/
inductive SummaryOutcome where
  | report (r : Reporte)
  | crash
deriving DecidableEq, Repr

/-- The `(int(hour), state)` projection used by `calcular_ciclo_on_off`. -/
def eventHours (evts : List Event) : List (ℤ × String) :=
  evts.map (fun e => (e.hour, e.state))

/-- Lines 254-264 of `automatic`: `dia_de_flora` is computed first (returning
`None` on an empty timeline), then `ciclo_on, ciclo_off = calcular_ciclo_on_off(file)`
raises `ValueError` when the error string is returned, then `week = dia_de_flora / 7`
raises `TypeError` when `dia_de_flora` is `None`, then the subscripting of
`calcular_proximo_cambio`'s result raises `KeyError` on an error dict. -/
def summaryStage (evts : List Event) (today now : ℚ) : SummaryOutcome :=
  let flora := diaDeFlora evts today
  match calcularCiclo (eventHours evts) with
  | .insuficiente => .crash
  | .ciclo con coff =>
      match flora with
      | none => .crash
      | some d =>
          match proximoCambio evts now with
          | .cambio t s f => .report ⟨d, (d : ℚ) / 7, con, coff, con + coff, t, s, f⟩
          | _ => .crash

/-! ## Claim C6: hour-wraparound distance -/

theorem cambiosAux_eq_zipWith (rest : List (ℤ × String)) :
    ∀ (s : String) (h : ℤ),
      cambiosAux s h rest = List.zipWith dist (h :: trAux s rest) (trAux s rest) := by
  induction rest with
  | nil => intro s h; simp [cambiosAux, trAux]
  | cons p rest ih =>
      intro s h
      obtain ⟨h', s'⟩ := p
      by_cases hs : s' = s
      · simp [cambiosAux, trAux, hs, ih]
      · simp only [cambiosAux, trAux, if_pos (by simpa using hs)]
        rw [ih s' h']
        simp [dist, List.zipWith]

/-- C6: every entry of the `cambios` list is the wraparound distance
`dist prev next = if next ≥ prev then next - prev else next + 24 - prev`
between consecutive recorded transition hours, and a transition at hour 23
followed by one at hour 1 yields a distance of 2. -/
theorem c6_wraparound_distance :
    (∀ evts : List (ℤ × String),
        cambios evts = List.zipWith dist (trSeq evts) (trSeq evts).tail)
    ∧ dist 23 1 = 2
    ∧ cambios [(23, "ON"), (1, "OFF")] = [2] := by
  refine ⟨?_, by decide, by decide⟩
  intro evts
  cases evts with
  | nil => simp [cambios, trSeq]
  | cons p rest =>
      obtain ⟨h, s⟩ := p
      simpa [cambios, trSeq] using cambiosAux_eq_zipWith rest s h

/-! ## Claim C7: fewer than two transitions fail -/

theorem cambiosAux_length (rest : List (ℤ × String)) :
    ∀ (s : String) (h : ℤ),
      (cambiosAux s h rest).length = adjDiff (s :: rest.map Prod.snd) := by
  induction rest with
  | nil => intro s h; simp [cambiosAux, adjDiff]
  | cons p rest ih =>
      intro s h
      obtain ⟨h', s'⟩ := p
      by_cases hs : s' = s
      · simp only [cambiosAux, if_neg (not_not_intro hs)]
        rw [ih s h]
        simp [adjDiff, hs, List.zip_cons_cons, List.filter_cons]
      · simp only [cambiosAux, if_pos hs]
        simp only [List.length_cons, ih s' h']
        simp [adjDiff, List.zip_cons_cons, List.filter_cons, bne_iff_ne, Ne.symm hs]

theorem length_cambios (evts : List (ℤ × String)) :
    (cambios evts).length = numTransitions evts := by
  cases evts with
  | nil => simp [cambios, numTransitions, adjDiff]
  | cons p rest =>
      obtain ⟨h, s⟩ := p
      simp only [cambios, numTransitions, List.map_cons]
      exact cambiosAux_length rest s h

/-- C7: a timeline with fewer than two true state transitions (consecutive
same-state events are not transitions) makes the cycle analyzer return its
insufficient-data result instead of a cycle pattern. -/
theorem c7_insufficient_transitions (evts : List (ℤ × String))
    (h : numTransitions evts < 2) :
    calcularCiclo evts = CicloResult.insuficiente := by
  unfold calcularCiclo
  rw [if_pos (by rw [length_cambios]; exact h)]

/-- Witness for C7: the single-event timeline has zero transitions, and the
analyzer indeed fails with insufficient data on it. -/
theorem c7_insufficient_transitions_witness :
    calcularCiclo [((8 : ℤ), "ON")] = CicloResult.insuficiente :=
  c7_insufficient_transitions [((8 : ℤ), "ON")] (by decide)

/-! ## Claim C8: empty timeline -/

/-- C8 counterexample: on the empty timeline the flowering-day computation
returns `none` — not zero — and the summary stage of `automatic` crashes
(the cycle error string cannot be unpacked into two values), contradicting
the claim that zeros are reported and the report is merely marked
incomplete rather than failing outright. -/
theorem c8_empty_timeline_counterexample :
    diaDeFlora [] 100 = none ∧ summaryStage [] 100 100 = SummaryOutcome.crash := by
  constructor <;> rfl

/-- C8 amended: for an empty timeline the flowering-day computation returns
`none` (after printing a message), and the summary stage of `automatic`
fails with an uncaught error — the cycle result cannot be unpacked —
rather than reporting zeros in an incomplete report. -/
theorem c8_empty_timeline_amended (today now : ℚ) :
    diaDeFlora [] today = none ∧ summaryStage [] today now = SummaryOutcome.crash := by
  constructor <;> rfl

/-! ## Resolver helper lemmas -/

theorem proximoCambio_of_none (evts : List Event) (now : ℚ)
    (h : estadoActual evts now = none) :
    proximoCambio evts now = Resultado.errorEstado := by
  unfold proximoCambio
  rw [h]

theorem proximoCambio_of_some (evts : List Event) (now : ℚ) (est : String)
    (h : estadoActual evts now = some est) :
    proximoCambio evts now =
      match evts.find? (fun e => decide (now < e.instant) && decide (e.state ≠ est)) with
      | some e => Resultado.cambio e.instant e.state (round2 (e.instant - now))
      | none => Resultado.errorSinCambios := by
  unfold proximoCambio
  rw [h]

theorem estadoActual_none_of_le : ∀ (evts : List Event) (now : ℚ),
    (∀ e ∈ evts, e.instant ≤ now) → estadoActual evts now = none
  | [], _, _ => rfl
  | [_], _, _ => rfl
  | a :: b :: rest, now, h => by
      have hb : b.instant ≤ now := h b (by simp)
      simp only [estadoActual]
      rw [if_neg (fun hc => absurd hc.2 (not_lt.mpr hb))]
      exact estadoActual_none_of_le (b :: rest) now
        (fun e he => h e (List.mem_cons_of_mem a he))

theorem estadoActual_none_of_lt : ∀ (evts : List Event) (now : ℚ),
    (∀ e ∈ evts, now < e.instant) → estadoActual evts now = none
  | [], _, _ => rfl
  | [_], _, _ => rfl
  | a :: b :: rest, now, h => by
      have ha : now < a.instant := h a (by simp)
      simp only [estadoActual]
      rw [if_neg (fun hc => absurd hc.1 (not_le.mpr ha))]
      exact estadoActual_none_of_lt (b :: rest) now
        (fun e he => h e (List.mem_cons_of_mem a he))

theorem le_getLast_of_sorted : ∀ (l : List Event) (last : Event),
    SortedTl l → l.getLast? = some last → ∀ e ∈ l, e.instant ≤ last.instant
  | [], _, _, hl => by simp at hl
  | [a], last, _, hl => by
      intro e he
      simp only [List.getLast?_singleton, Option.some.injEq] at hl
      simp only [List.mem_singleton] at he
      rw [he, hl]
  | a :: b :: rest, last, hs, hl => by
      intro e he
      rw [List.getLast?_cons_cons] at hl
      have hs' : SortedTl (b :: rest) := hs.of_cons
      have hlast_mem : last ∈ b :: rest := List.mem_of_getLast?_eq_some hl
      rcases List.mem_cons.mp he with rfl | he'
      · exact le_trans (le_refl _) (List.rel_of_pairwise_cons hs hlast_mem)
      · exact le_getLast_of_sorted (b :: rest) last hs' hl e he'

theorem head_le_of_sorted (l : List Event) (e0 : Event)
    (hs : SortedTl l) (hh : l.head? = some e0) :
    ∀ e ∈ l, e0.instant ≤ e.instant := by
  cases l with
  | nil => simp at hh
  | cons a rest =>
      simp only [List.head?_cons, Option.some.injEq] at hh
      subst hh
      intro e he
      rcases List.mem_cons.mp he with rfl | he'
      · exact le_refl _
      · exact List.rel_of_pairwise_cons hs he'

theorem find?_min_sorted (l : List Event) (p : Event → Bool) (e : Event)
    (hs : SortedTl l) (hf : l.find? p = some e) :
    ∀ x ∈ l, p x = true → e.instant ≤ x.instant := by
  induction l with
  | nil => simp at hf
  | cons a rest ih =>
      have hs' : SortedTl rest := hs.of_cons
      by_cases hpa : p a = true
      · rw [List.find?_cons_of_pos _ hpa] at hf
        obtain rfl : a = e := by injection hf
        intro x hx _
        rcases List.mem_cons.mp hx with rfl | hx'
        · exact le_refl _
        · exact List.rel_of_pairwise_cons hs hx'
      · rw [List.find?_cons_of_neg _ hpa] at hf
        intro x hx hpx
        rcases List.mem_cons.mp hx with rfl | hx'
        · exact absurd hpx hpa
        · exact ih hs' hf x hx' hpx

/-! ## Claim C1: query at or after the last event -/

/-- C1 counterexample: the timeline `[(day 0, 08h, ON), (day 0, 20h, OFF)]`
is well-formed with two events, and the query instant `500` is at/after the
last event's instant `20`, yet resolution does not return the last event's
state with no next change: the current-state scan finds nothing (it needs
`eventos[i][0] <= now < eventos[i+1][0]`, impossible past the last event)
and `calcular_proximo_cambio` returns the error dict of line 47. -/
theorem c1_counterexample :
    WellFormed [⟨0, 8, "ON"⟩, ⟨0, 20, "OFF"⟩]
    ∧ 2 ≤ ([⟨0, 8, "ON"⟩, ⟨0, 20, "OFF"⟩] : List Event).length
    ∧ ([⟨0, 8, "ON"⟩, ⟨0, 20, "OFF"⟩] : List Event).getLast? = some ⟨0, 20, "OFF"⟩
    ∧ (Event.instant ⟨0, 20, "OFF"⟩) ≤ 500
    ∧ estadoActual [⟨0, 8, "ON"⟩, ⟨0, 20, "OFF"⟩] 500 = none
    ∧ proximoCambio [⟨0, 8, "ON"⟩, ⟨0, 20, "OFF"⟩] 500 = Resultado.errorEstado := by
  refine ⟨by decide, by decide, by decide, by decide, by decide, by decide⟩

/-- C1 amended: for every well-formed timeline with at least 2 events and
every query instant at or after the last event's instant, resolution does
not determine a current state and `calcular_proximo_cambio` fails with the
could-not-determine-current-state error (rather than returning the last
event's state with `next_change: none`). -/
theorem c1_amended (evts : List Event) (last : Event) (now : ℚ)
    (hwf : WellFormed evts) (_hlen : 2 ≤ evts.length)
    (hlast : evts.getLast? = some last) (hnow : last.instant ≤ now) :
    estadoActual evts now = none ∧ proximoCambio evts now = Resultado.errorEstado := by
  have hs : SortedTl evts := hwf.imp (fun h => le_of_lt h)
  have hall : ∀ e ∈ evts, e.instant ≤ now := fun e he =>
    le_trans (le_getLast_of_sorted evts last hs hlast e he) hnow
  have h1 := estadoActual_none_of_le evts now hall
  exact ⟨h1, proximoCambio_of_none evts now h1⟩

/-- Witness for C1 (amended): a concrete well-formed three-event timeline
queried after its last event. -/
theorem c1_amended_witness :
    estadoActual [⟨0, 8, "ON"⟩, ⟨0, 20, "OFF"⟩, ⟨1, 8, "ON"⟩] 40 = none
    ∧ proximoCambio [⟨0, 8, "ON"⟩, ⟨0, 20, "OFF"⟩, ⟨1, 8, "ON"⟩] 40
        = Resultado.errorEstado :=
  c1_amended [⟨0, 8, "ON"⟩, ⟨0, 20, "OFF"⟩, ⟨1, 8, "ON"⟩] ⟨1, 8, "ON"⟩ 40
    (by decide) (by decide) (by decide) (by decide)

/-! ## Claim C4: left edge of each event's interval -/

/-- C4 counterexample: in the well-formed two-event timeline
`[(day 0, 00h, OFF), (day 0, 05h, ON)]`, resolving exactly at the last
event's instant returns no state at all — the half-open-interval scan never
covers the last event — so "every event" is wrong for the last one. -/
theorem c4_counterexample :
    WellFormed [⟨0, 0, "OFF"⟩, ⟨0, 5, "ON"⟩]
    ∧ 2 ≤ ([⟨0, 0, "OFF"⟩, ⟨0, 5, "ON"⟩] : List Event).length
    ∧ (⟨0, 5, "ON"⟩ : Event) ∈ ([⟨0, 0, "OFF"⟩, ⟨0, 5, "ON"⟩] : List Event)
    ∧ estadoActual [⟨0, 0, "OFF"⟩, ⟨0, 5, "ON"⟩] (Event.instant ⟨0, 5, "ON"⟩) = none := by
  refine ⟨by decide, by decide, by decide, by decide⟩

/-- C4 amended: for every well-formed timeline with at least 2 events and
every event other than the last one, resolving exactly at that event's
instant returns that event's state (the left edge of the half-open interval
is inclusive); the last event has no interval and resolves to nothing. -/
theorem c4_amended (evts : List Event) (i : ℕ) (hwf : WellFormed evts)
    (hi : i + 1 < evts.length) :
    estadoActual evts (evts.get ⟨i, Nat.lt_of_succ_lt hi⟩).instant
      = some (evts.get ⟨i, Nat.lt_of_succ_lt hi⟩).state := by
  induction evts generalizing i with
  | nil => simp at hi
  | cons a rest iha =>
      cases rest with
      | nil => simp at hi
      | cons b rest' =>
          have hab : a.instant < b.instant :=
            List.rel_of_pairwise_cons hwf (by simp)
          cases i with
          | zero =>
              simp only [List.get]
              simp only [estadoActual]
              rw [if_pos ⟨le_refl _, hab⟩]
          | succ j =>
              have hj : j + 1 < (b :: rest').length := by
                simpa [List.length_cons, Nat.succ_lt_succ_iff] using hi
              have hrec := iha j hwf.of_cons hj
              have hget : (a :: b :: rest').get ⟨j + 1, Nat.lt_of_succ_lt hi⟩
                  = (b :: rest').get ⟨j, Nat.lt_of_succ_lt hj⟩ := by
                simp [List.get_cons_succ]
              rw [hget]
              have hmem : (b :: rest').get ⟨j, Nat.lt_of_succ_lt hj⟩ ∈ b :: rest' :=
                List.get_mem _ _ _
              have hble : b.instant ≤ ((b :: rest').get ⟨j, Nat.lt_of_succ_lt hj⟩).instant :=
                head_le_of_sorted (b :: rest') b (hwf.of_cons.imp (fun h => le_of_lt h))
                  (by simp) _ hmem
              simp only [estadoActual]
              rw [if_neg (fun hc => absurd hc.2 (not_lt.mpr hble))]
              exact hrec

/-- Witness for C4 (amended): resolving the concrete three-event timeline
at its middle event's instant yields that event's state. -/
theorem c4_amended_witness :
    estadoActual [⟨0, 6, "ON"⟩, ⟨0, 18, "OFF"⟩, ⟨1, 6, "ON"⟩]
        (([⟨0, 6, "ON"⟩, ⟨0, 18, "OFF"⟩, ⟨1, 6, "ON"⟩] : List Event).get ⟨1, by decide⟩).instant
      = some (([⟨0, 6, "ON"⟩, ⟨0, 18, "OFF"⟩, ⟨1, 6, "ON"⟩] : List Event).get ⟨1, by decide⟩).state :=
  c4_amended [⟨0, 6, "ON"⟩, ⟨0, 18, "OFF"⟩, ⟨1, 6, "ON"⟩] 1 (by decide) (by decide)

/-! ## Claim C5: query before the first event -/

/-- C5: for every timeline (ordered ascending, as the data model requires)
and every query instant strictly before the first event's instant, no
current state is determined and `calcular_proximo_cambio` fails with its
error dict — the code's single could-not-determine error playing the role
of `BeforeTimelineStart` — instead of returning a current state. -/
theorem c5_before_first (evts : List Event) (e0 : Event) (now : ℚ)
    (hs : SortedTl evts) (hhead : evts.head? = some e0) (hnow : now < e0.instant) :
    estadoActual evts now = none ∧ proximoCambio evts now = Resultado.errorEstado := by
  have hall : ∀ e ∈ evts, now < e.instant := fun e he =>
    lt_of_lt_of_le hnow (head_le_of_sorted evts e0 hs hhead e he)
  have h1 := estadoActual_none_of_lt evts now hall
  exact ⟨h1, proximoCambio_of_none evts now h1⟩

/-- Witness for C5: a concrete two-event timeline queried one hour before
its first event. -/
theorem c5_before_first_witness :
    estadoActual [⟨0, 8, "ON"⟩, ⟨0, 20, "OFF"⟩] 7 = none
    ∧ proximoCambio [⟨0, 8, "ON"⟩, ⟨0, 20, "OFF"⟩] 7 = Resultado.errorEstado :=
  c5_before_first [⟨0, 8, "ON"⟩, ⟨0, 20, "OFF"⟩] ⟨0, 8, "ON"⟩ 7
    (by decide) (by decide) (by decide)

/-! ## Claim C2: the reported next change -/

/-- C2: for every well-formed timeline and query instant for which a current
state is resolved, whenever `calcular_proximo_cambio` reports a next change
it is an event of the timeline strictly after the query instant whose state
differs from the current state, no strictly-later differing event precedes
it (same-state events are skipped), and its `faltan_horas` is the instant
difference in fractional hours rounded to two decimal places; moreover a
change is reported whenever such an event exists. -/
theorem c2_next_change (evts : List Event) (now : ℚ) (est : String)
    (hwf : WellFormed evts) (hest : estadoActual evts now = some est) :
    (∀ t s f, proximoCambio evts now = Resultado.cambio t s f →
      ∃ e ∈ evts, e.instant = t ∧ e.state = s ∧ now < t ∧ s ≠ est ∧
        f = round2 (t - now) ∧
        ∀ x ∈ evts, now < x.instant → x.state ≠ est → t ≤ x.instant)
    ∧ ((∃ e ∈ evts, now < e.instant ∧ e.state ≠ est) →
        ∃ t s f, proximoCambio evts now = Resultado.cambio t s f) := by
  have hs : SortedTl evts := hwf.imp (fun h => le_of_lt h)
  have hred := proximoCambio_of_some evts now est hest
  constructor
  · intro t s f hpc
    rw [hred] at hpc
    cases hfind : evts.find? (fun e => decide (now < e.instant) && decide (e.state ≠ est)) with
    | none => rw [hfind] at hpc; exact absurd hpc (by simp)
    | some e =>
        rw [hfind] at hpc
        have ht : e.instant = t := by cases hpc; rfl
        have hsst : e.state = s := by cases hpc; rfl
        have hfh : round2 (e.instant - now) = f := by cases hpc; rfl
        have hmem := List.mem_of_find?_eq_some hfind
        have hp := List.find?_some hfind
        simp only [Bool.and_eq_true, decide_eq_true_eq] at hp
        refine ⟨e, hmem, ht, hsst, ht ▸ hp.1, hsst ▸ hp.2, by rw [← hfh, ht], ?_⟩
        intro x hx h1 h2
        have hmin := find?_min_sorted evts _ e hs hfind x hx (by simp [h1, h2])
        exact ht ▸ hmin
  · rintro ⟨e, he, h1, h2⟩
    have hex : ∃ x, x ∈ evts ∧
        (fun e => decide (now < e.instant) && decide (e.state ≠ est)) x = true :=
      ⟨e, he, by simp [h1, h2]⟩
    obtain ⟨y, hy⟩ := Option.isSome_iff_exists.mp (List.find?_isSome.mpr hex)
    rw [hred, hy]
    exact ⟨_, _, _, rfl⟩

/-- Witness for C2: the spec's own scenario — events
`[(01/01, 08h, ON), (01/01, 20h, OFF), (02/01, 08h, ON)]` queried at
`01/01 14:00` with current state ON: the reported change is the 20h OFF
event, 6.00 hours away, and no earlier differing event exists. -/
theorem c2_next_change_witness :
    ∃ e ∈ ([⟨0, 8, "ON"⟩, ⟨0, 20, "OFF"⟩, ⟨1, 8, "ON"⟩] : List Event),
      e.instant = 20 ∧ e.state = "OFF" ∧ (14 : ℚ) < 20 ∧ "OFF" ≠ "ON" ∧
      (6 : ℚ) = round2 (20 - 14) ∧
      ∀ x ∈ ([⟨0, 8, "ON"⟩, ⟨0, 20, "OFF"⟩, ⟨1, 8, "ON"⟩] : List Event),
        (14 : ℚ) < x.instant → x.state ≠ "ON" → (20 : ℚ) ≤ x.instant :=
  (c2_next_change [⟨0, 8, "ON"⟩, ⟨0, 20, "OFF"⟩, ⟨1, 8, "ON"⟩] 14 "ON"
    (by decide) (by decide)).1 20 "OFF" 6 (by
      rw [proximoCambio_of_some [⟨0, 8, "ON"⟩, ⟨0, 20, "OFF"⟩, ⟨1, 8, "ON"⟩] 14 "ON" (by decide)]
      rw [show ([⟨0, 8, "ON"⟩, ⟨0, 20, "OFF"⟩, ⟨1, 8, "ON"⟩] : List Event).find?
            (fun e => decide ((14 : ℚ) < e.instant) && decide (e.state ≠ "ON"))
          = some ⟨0, 20, "OFF"⟩ from by decide]
      norm_num [Event.instant, round2])

/-! ## EventStore / configuration lookup (`read_configuration`, lines 155-194,
and the command decision of `automatic`, lines 281-300) -/

/-- A record as read by `read_configuration`: the raw `date`, `hour` and
`state` texts (note line 175 keeps the hour text exactly as written — no
`zfill`). -/
structure Record where
  date : String
  hour : String
  state : String
deriving DecidableEq, Repr

/-- Lookup in the nested dict built by `configuration[date][hour] = state`
(lines 179-182): sequential assignment means the **last** record with the
given date and hour texts wins. -/
def configGet : List Record → String → String → Option String
  | [], _, _ => none
  | r :: rest, d, h =>
      match configGet rest d h with
      | some s => some s
      | none => if r.date = d ∧ r.hour = h then some r.state else none

/-- A device command as sent by `send_command_tasmota` (1 for ON, 0 for OFF). -/
inductive Command where
  | on
  | off
deriving DecidableEq, Repr

/-- The command decision of `automatic` (lines 290-300): look up the exact
`(date_key, hour_key)` texts; send ON for `"ON"`, OFF for `"OFF"`, and in
every other case (no entry, or any other state text) send nothing. -/
def automaticCommand (records : List Record) (dateKey hourKey : String) : Option Command :=
  match configGet records dateKey hourKey with
  | some s => if s = "ON" then some .on else if s = "OFF" then some .off else none
  | none => none

/-- Models `now.strftime("%H")`: the zero-padded two-digit rendering of an
hour of day. -/
def strftimeH (h : ℤ) : String :=
  if 0 ≤ h ∧ h < 10 then "0" ++ toString h else toString h

/-- The last record whose date and hour texts match the keys: the first
match when scanning the records from the end. -/
def lastMatch (records : List Record) (d h : String) : Option Record :=
  records.reverse.find? (fun r => decide (r.date = d ∧ r.hour = h))

theorem configGet_eq_lastMatch (records : List Record) (d h : String) :
    configGet records d h = (lastMatch records d h).map (fun r => r.state) := by
  induction records with
  | nil => rfl
  | cons r rest ih =>
      simp only [configGet, lastMatch, List.reverse_cons, List.find?_append]
      cases hfr : rest.reverse.find? (fun r => decide (r.date = d ∧ r.hour = h)) with
      | some q =>
          rw [show lastMatch rest d h = some q from hfr] at ih
          rw [ih]
          simp
      | none =>
          rw [show lastMatch rest d h = none from hfr] at ih
          rw [ih]
          by_cases hp : r.date = d ∧ r.hour = h
          · simp [hp]
          · simp [hp]

/-! ## Claim C3: the command decision is exact text matching -/

/-- C3 counterexample: the configuration contains an event whose date text
equals the date key and whose hour text equals the zero-padded two-digit
current hour, yet no command is sent, because its state text `"on"` is
neither `"ON"` nor `"OFF"` — so "a command is sent if and only if a
matching event exists" fails in the if direction. -/
theorem c3_counterexample :
    (∃ r ∈ ([⟨"01/02/2025", "08", "on"⟩] : List Record),
        r.date = "01/02/2025" ∧ r.hour = strftimeH 8)
    ∧ automaticCommand [⟨"01/02/2025", "08", "on"⟩] "01/02/2025" (strftimeH 8) = none := by
  constructor
  · exact ⟨⟨"01/02/2025", "08", "on"⟩, by decide, by decide, by decide⟩
  · decide

/-- C3 amended: the automatic control step sends a device command if and
only if the parsed configuration contains an event whose date text equals
the date key and whose hour text equals the hour key **and** the last such
event's state text is exactly `ON` or `OFF`; in every other case —
including an event written with a non-zero-padded hour such as `8` queried
with the zero-padded hour key `08` — no command is sent. The resolved
interval semantics of the timeline resolver plays no part: only exact text
equality of the keys decides. -/
theorem c3_amended :
    (∀ (records : List Record) (dk hk : String),
      (∃ c, automaticCommand records dk hk = some c) ↔
        (∃ r, lastMatch records dk hk = some r ∧ (r.state = "ON" ∨ r.state = "OFF")))
    ∧ (∀ d : String, automaticCommand [⟨d, "8", "ON"⟩] d (strftimeH 8) = none) := by
  constructor
  · intro records dk hk
    rw [show automaticCommand records dk hk =
          match configGet records dk hk with
          | some s => if s = "ON" then some .on else if s = "OFF" then some .off else none
          | none => none from rfl]
    rw [configGet_eq_lastMatch]
    cases hlm : lastMatch records dk hk with
    | none => simp
    | some r =>
        simp only [Option.map_some']
        by_cases h1 : r.state = "ON"
        · simp [h1]
        · by_cases h2 : r.state = "OFF"
          · simp [h1, h2]
          · simp [h1, h2]
  · intro d
    have hne : strftimeH 8 ≠ "8" := by decide
    rw [show automaticCommand [⟨d, "8", "ON"⟩] d (strftimeH 8) =
          match configGet [⟨d, "8", "ON"⟩] d (strftimeH 8) with
          | some s => if s = "ON" then some .on else if s = "OFF" then some .off else none
          | none => none from rfl]
    rw [show configGet [⟨d, "8", "ON"⟩] d (strftimeH 8) = none from by
      simp only [configGet]
      rw [if_neg (fun hc => hne hc.2.symm)]]

/-! ## EventStore parsing (`read_configuration`'s loop and error handling) -/

/-- A raw XML `event` element: each child may be missing. Accessing a
missing required child (`date`, `hour`, `state`) raises `AttributeError`
in the source (`.find(...)` returns `None`, then `.text` fails). -/
structure RawRecord where
  date : Option String
  hour : Option String
  state : Option String
  fotoperiodism : Option String
  mode : Option String
  alert : Option String
deriving DecidableEq, Repr

/-- A record is well formed when its three required children exist. -/
def wellFormedRecord (r : RawRecord) : Bool :=
  r.date.isSome && r.hour.isSome && r.state.isSome

/-- What `read_configuration` hands back, together with what it printed:
the configuration assignments in insertion order, the metadata entries
(key `date#hour`, values defaulted to `"N/A"`), and the printed lines. -/
structure ReadOutput where
  config : List Record
  metadata : List (String × (String × String × String))
  printed : List String
deriving DecidableEq, Repr

/-- The error message printed by the `except` clause at line 192 (the
original interpolates the exception text). -/
def readErrorMsg : String := "Error reading configuration file"

/-- Lines 166-194 of `supercycler.py`: records are processed in order; the
first record with a missing required child raises, aborting the loop; the
`except` clause **prints** the error and the partially filled dictionaries
are returned with no error value. -/
def readConfiguration : List RawRecord → ReadOutput
  | [] => ⟨[], [], []⟩
  | r :: rest =>
      match r.date, r.hour, r.state with
      | some d, some h, some s =>
          let out := readConfiguration rest
          ⟨⟨d, h, s⟩ :: out.config,
           (d ++ "#" ++ h,
             (r.fotoperiodism.getD "N/A", r.mode.getD "N/A", r.alert.getD "N/A")) :: out.metadata,
           out.printed⟩
      | _, _, _ => ⟨[], [], [readErrorMsg]⟩

/-- The configuration entry a well-formed record contributes. -/
def entryOf (r : RawRecord) : Record :=
  ⟨r.date.getD "", r.hour.getD "", r.state.getD ""⟩

/-- The metadata entry a well-formed record contributes. -/
def metaOf (r : RawRecord) : String × (String × String × String) :=
  (r.date.getD "" ++ "#" ++ r.hour.getD "",
    (r.fotoperiodism.getD "N/A", r.mode.getD "N/A", r.alert.getD "N/A"))

/-! ## Claim C9: parsing is not pure -/

/-- C9 counterexample: on a source whose single record lacks its `date`
child, parsing prints an error line — a side effect — and the returned
value carries no error indication, contradicting "pure parse; errors are
collected and returned, not printed". -/
theorem c9_counterexample :
    (readConfiguration [⟨none, some "08", some "ON", none, none, none⟩]).printed
      = [readErrorMsg]
    ∧ (readConfiguration [⟨none, some "08", some "ON", none, none, none⟩]).printed ≠ [] := by
  constructor
  · rfl
  · decide

/-- C9 amended: parsing is not pure — on input whose first malformed record
follows any run of well-formed ones, `read_configuration` prints an error
message and returns the entries accumulated before the failure, with no
error value returned to the caller; on fully well-formed input nothing is
printed. -/
theorem c9_amended :
    (∀ (good : List RawRecord) (bad : RawRecord) (rest : List RawRecord),
      (∀ r ∈ good, wellFormedRecord r = true) → wellFormedRecord bad = false →
      readConfiguration (good ++ bad :: rest)
        = ⟨good.map entryOf, good.map metaOf, [readErrorMsg]⟩)
    ∧ (∀ records : List RawRecord,
      (∀ r ∈ records, wellFormedRecord r = true) →
      readConfiguration records
        = ⟨records.map entryOf, records.map metaOf, []⟩) := by
  have hbad_case : ∀ (bad : RawRecord), wellFormedRecord bad = false →
      ∀ rest, readConfiguration (bad :: rest) = ⟨[], [], [readErrorMsg]⟩ := by
    intro bad hbad rest
    unfold wellFormedRecord at hbad
    cases hd : bad.date with
    | none => simp only [readConfiguration, hd]
    | some d =>
        cases hh : bad.hour with
        | none => simp only [readConfiguration, hd, hh]
        | some h =>
            cases hs : bad.state with
            | none => simp only [readConfiguration, hd, hh, hs]
            | some s => rw [hd, hh, hs] at hbad; simp at hbad
  have hgood_step : ∀ (r : RawRecord), wellFormedRecord r = true →
      ∀ l, readConfiguration (r :: l)
        = ⟨entryOf r :: (readConfiguration l).config,
           metaOf r :: (readConfiguration l).metadata,
           (readConfiguration l).printed⟩ := by
    intro r hr l
    unfold wellFormedRecord at hr
    simp only [Bool.and_eq_true, Option.isSome_iff_exists] at hr
    obtain ⟨⟨⟨d, hd⟩, ⟨h, hh⟩⟩, ⟨s, hs⟩⟩ := hr
    simp only [readConfiguration, hd, hh, hs, entryOf, metaOf]
    simp [hd, hh, hs]
  constructor
  · intro good bad rest hgood hbad
    induction good with
    | nil => simpa using hbad_case bad hbad rest
    | cons r good' ih =>
        have hr : wellFormedRecord r = true := hgood r (by simp)
        have hrest : ∀ x ∈ good', wellFormedRecord x = true :=
          fun x hx => hgood x (List.mem_cons_of_mem r hx)
        simp only [List.cons_append]
        rw [hgood_step r hr, ih hrest]
        simp
  · intro records hgood
    induction records with
    | nil => rfl
    | cons r rest ih =>
        have hr : wellFormedRecord r = true := hgood r (by simp)
        have hrest : ∀ x ∈ rest, wellFormedRecord x = true :=
          fun x hx => hgood x (List.mem_cons_of_mem r hx)
        rw [hgood_step r hr, ih hrest]
        simp

/-- Witness for C9 (amended): one well-formed record followed by a record
missing its `date` child — the well-formed entry is kept, the error is
printed, nothing is returned as an error. -/
theorem c9_amended_witness :
    readConfiguration
        [⟨some "30/01/2025", some "08", some "ON", none, none, none⟩,
         ⟨none, some "20", some "OFF", none, none, none⟩]
      = ⟨[⟨"30/01/2025", "08", "ON"⟩],
         [("30/01/2025" ++ "#" ++ "08", ("N/A", "N/A", "N/A"))],
         [readErrorMsg]⟩ := by
  have h := c9_amended.1
    [⟨some "30/01/2025", some "08", some "ON", none, none, none⟩]
    ⟨none, some "20", some "OFF", none, none, none⟩ []
    (by intro r hr; simp at hr; rw [hr]; rfl) (by rfl)
  simpa [entryOf, metaOf] using h

/-! ## Claim C10: clock reads during one `automatic` cycle

`automatic` (lines 241-300) and its helpers read the wall clock several
times. We model the clock as a stream (list) of instants consumed in
program order by the successive `datetime.now()` / `datetime.today()`
calls:
read 1 — `automatic` line 241 (bound to `now`, then never used);
read 2 — `calcular_dia_de_flora` line 142 (only reached when a first
event exists; on an empty timeline the function returns before it);
read 3 — `calcular_proximo_cambio` line 37;
read 4 — `automatic` line 283 (the command decision's keys).
The print-only read inside `send_command_tasmota` is presentation and is
not modelled. -/

/-- Pop one instant off the clock stream (`0` if exhausted). -/
def readClock : List ℚ → ℚ × List ℚ
  | [] => (0, [])
  | t :: rest => (t, rest)

/-- Models `now.strftime("%d/%m/%Y")` as an injective rendering of the
calendar day of an instant. -/
def dateKeyOf (t : ℚ) : String := toString ⌊t / 24⌋

/-- Models `now.strftime("%H")`: the zero-padded hour of day of an instant. -/
def hourKeyOf (t : ℚ) : String := strftimeH (⌊t⌋ - 24 * ⌊t / 24⌋)

/-- Outcome of one `automatic` cycle: the assembled report plus the command
decision, or an uncaught exception. -/
inductive AutoOutcome where
  | done (r : Reporte) (cmd : Option Command)
  | crash
deriving DecidableEq, Repr

/-- One `automatic` cycle (lines 241-300) over a clock stream: each wall
clock read pops the stream in program order. -/
def automaticClock (evts : List Event) (records : List Record)
    (clock : List ℚ) : AutoOutcome :=
  let r1 := readClock clock
  let floraRead : Option ℤ × List ℚ :=
    match evts with
    | [] => (none, r1.2)
    | _ :: _ => ((diaDeFlora evts (readClock r1.2).1), (readClock r1.2).2)
  match calcularCiclo (eventHours evts) with
  | .insuficiente => .crash
  | .ciclo con coff =>
      match floraRead.1 with
      | none => .crash
      | some d =>
          let r3 := readClock floraRead.2
          match proximoCambio evts r3.1 with
          | .cambio t s f =>
              let r4 := readClock r3.2
              .done ⟨d, (d : ℚ) / 7, con, coff, con + coff, t, s, f⟩
                (automaticCommand records (dateKeyOf r4.1) (hourKeyOf r4.1))
          | _ => .crash

theorem automaticClock_cons (e : Event) (es : List Event) (records : List Record)
    (t1 t2 t3 t4 : ℚ) (rest : List ℚ) :
    automaticClock (e :: es) records (t1 :: t2 :: t3 :: t4 :: rest) =
      match calcularCiclo (eventHours (e :: es)) with
      | .insuficiente => .crash
      | .ciclo con coff =>
          match diaDeFlora (e :: es) t2 with
          | none => .crash
          | some d =>
              match proximoCambio (e :: es) t3 with
              | .cambio t s f =>
                  .done ⟨d, (d : ℚ) / 7, con, coff, con + coff, t, s, f⟩
                    (automaticCommand records (dateKeyOf t4) (hourKeyOf t4))
              | _ => .crash := rfl

/-- The timeline used for the C10 counterexample: a well-formed 12/12
schedule over two days. -/
def c10Events : List Event :=
  [⟨0, 8, "ON"⟩, ⟨0, 20, "OFF"⟩, ⟨1, 8, "ON"⟩, ⟨1, 20, "OFF"⟩]

/-- The configuration used for the C10 counterexample: one entry matching
day 1 at hour 06. -/
def c10Records : List Record := [⟨"1", "06", "ON"⟩]

theorem c10_ciclo_eval : calcularCiclo (eventHours c10Events) = CicloResult.ciclo 12 12 := by
  have hc : cambios (eventHours c10Events) = [12, 12, 12] := by decide
  unfold calcularCiclo
  rw [hc]
  have he : evens [12, 12, 12] = [(12 : ℤ), 12] := by decide
  have ho : odds [12, 12, 12] = [(12 : ℤ)] := by decide
  rw [if_neg (by decide), he, ho]
  have h1 : truncInt (promedio [(12 : ℤ), 12]) = 12 := by
    rw [promedio, if_neg (by decide)]
    norm_num [truncInt]
  have h2 : truncInt (promedio [(12 : ℤ)]) = 12 := by
    rw [promedio, if_neg (by decide)]
    norm_num [truncInt]
  rw [h1, h2]

theorem c10_proximo_eval : proximoCambio c10Events 30 = Resultado.cambio 32 "ON" 2 := by
  rw [proximoCambio_of_some c10Events 30 "OFF" (by decide)]
  rw [show c10Events.find?
        (fun e => decide ((30 : ℚ) < e.instant) && decide (e.state ≠ "OFF"))
      = some ⟨1, 8, "ON"⟩ from by decide]
  norm_num [Event.instant, round2]

theorem c10_datekey_30 : dateKeyOf 30 = "1" := by
  unfold dateKeyOf
  rw [show (⌊(30 : ℚ) / 24⌋ : ℤ) = 1 from by norm_num]
  decide

theorem c10_datekey_54 : dateKeyOf 54 = "2" := by
  unfold dateKeyOf
  rw [show (⌊(54 : ℚ) / 24⌋ : ℤ) = 2 from by norm_num]
  decide

theorem c10_hourkey_30 : hourKeyOf 30 = "06" := by
  unfold hourKeyOf
  rw [show (⌊(30 : ℚ)⌋ - 24 * ⌊(30 : ℚ) / 24⌋ : ℤ) = 6 from by norm_num]
  decide

theorem c10_hourkey_54 : hourKeyOf 54 = "06" := by
  unfold hourKeyOf
  rw [show (⌊(54 : ℚ)⌋ - 24 * ⌊(54 : ℚ) / 24⌋ : ℤ) = 6 from by norm_num]
  decide

theorem c10_flora_30 : diaDeFlora c10Events 30 = some 1 := by
  show some ⌊((30 : ℚ) - 24 * ((0 : ℤ) : ℚ)) / 24⌋ = some 1
  norm_num

theorem c10_flora_78 : diaDeFlora c10Events 78 = some 3 := by
  show some ⌊((78 : ℚ) - 24 * ((0 : ℤ) : ℚ)) / 24⌋ = some 3
  norm_num

/-- C10 counterexample: with the same event list and the same first
captured instant, later clock readings change the outcome — varying only
the fourth reading flips the command decision, and varying only the second
changes the reported flowering day — so the resolution is **not** a
function of a single captured query instant. -/
theorem c10_counterexample :
    automaticClock c10Events c10Records [100, 30, 30, 30]
      ≠ automaticClock c10Events c10Records [100, 30, 30, 54]
    ∧ automaticClock c10Events c10Records [100, 30, 30, 30]
      ≠ automaticClock c10Events c10Records [100, 78, 30, 30] := by
  have hA : automaticClock c10Events c10Records [100, 30, 30, 30]
      = AutoOutcome.done ⟨1, (1 : ℚ) / 7, 12, 12, 24, 32, "ON", 2⟩ (some Command.on) := by
    rw [show c10Events = ⟨0, 8, "ON"⟩ :: [⟨0, 20, "OFF"⟩, ⟨1, 8, "ON"⟩, ⟨1, 20, "OFF"⟩] from rfl]
    rw [automaticClock_cons]
    rw [show (⟨0, 8, "ON"⟩ : Event) :: [⟨0, 20, "OFF"⟩, ⟨1, 8, "ON"⟩, ⟨1, 20, "OFF"⟩]
        = c10Events from rfl]
    rw [c10_ciclo_eval, c10_flora_30, c10_proximo_eval, c10_datekey_30, c10_hourkey_30]
    norm_num
    decide
  have hB : automaticClock c10Events c10Records [100, 30, 30, 54]
      = AutoOutcome.done ⟨1, (1 : ℚ) / 7, 12, 12, 24, 32, "ON", 2⟩ none := by
    rw [show c10Events = ⟨0, 8, "ON"⟩ :: [⟨0, 20, "OFF"⟩, ⟨1, 8, "ON"⟩, ⟨1, 20, "OFF"⟩] from rfl]
    rw [automaticClock_cons]
    rw [show (⟨0, 8, "ON"⟩ : Event) :: [⟨0, 20, "OFF"⟩, ⟨1, 8, "ON"⟩, ⟨1, 20, "OFF"⟩]
        = c10Events from rfl]
    rw [c10_ciclo_eval, c10_flora_30, c10_proximo_eval, c10_datekey_54, c10_hourkey_54]
    norm_num
    decide
  have hC : automaticClock c10Events c10Records [100, 78, 30, 30]
      = AutoOutcome.done ⟨3, (3 : ℚ) / 7, 12, 12, 24, 32, "ON", 2⟩ (some Command.on) := by
    rw [show c10Events = ⟨0, 8, "ON"⟩ :: [⟨0, 20, "OFF"⟩, ⟨1, 8, "ON"⟩, ⟨1, 20, "OFF"⟩] from rfl]
    rw [automaticClock_cons]
    rw [show (⟨0, 8, "ON"⟩ : Event) :: [⟨0, 20, "OFF"⟩, ⟨1, 8, "ON"⟩, ⟨1, 20, "OFF"⟩]
        = c10Events from rfl]
    rw [c10_ciclo_eval, c10_flora_78, c10_proximo_eval, c10_datekey_30, c10_hourkey_30]
    norm_num
    decide
  constructor
  · rw [hA, hB]
    intro h
    cases h
  · rw [hA, hC]
    intro h
    cases h

/-- C10 amended: the cycle does not use one consistently captured instant —
the clock is read anew by each step. What does hold: the outcome of one
`automatic` cycle is a function of the first four clock readings jointly,
and the initial reading (line 241) is discarded — only the flowering-day,
next-change and command-decision readings matter. -/
theorem c10_amended (evts : List Event) (records : List Record)
    (t1 t1' t2 t3 t4 : ℚ) (rest rest' : List ℚ) :
    automaticClock evts records (t1 :: t2 :: t3 :: t4 :: rest)
      = automaticClock evts records (t1' :: t2 :: t3 :: t4 :: rest') := by
  cases evts with
  | nil => rfl
  | cons e es => rfl

end Supercycler
